import Mathlib

/-!
Shallow embedding of the extraction core of `sveltekit-api-fetch`
(`generateUrlType`, `getSchemaFromFunction` with its helpers `getSchema` and
`getReturnType`, `parseSchema`, and `getZodTypeToString`).

The TypeScript compiler surface the file touches is modelled explicitly:

* Syntax nodes are restricted to the constructor shapes the two walkers test
  for (`ts.isBlock`, `ts.isVariableStatement`, `ts.isVariableDeclaration`,
  `ts.isAwaitExpression`, `ts.isCallExpression`, `ts.isReturnStatement`).
* `ts.forEachChild(n, cb)` iterates the children of `n` in order and returns
  the first defined (truthy) result of `cb`; children on which `cb` yields
  nothing are skipped and iteration continues (`visitNodes` in the TypeScript
  parser returns the first truthy callback result and otherwise moves on).
  This iteration is modelled by `firstSome` below.
* Types (`ts.Type`) are modelled as finite trees carrying exactly the data the
  checker queries used here can observe: the canonical rendering
  (`typeChecker.typeToString`), the base types (`type.getBaseTypes()`, which
  is `undefined` for non-interface types), the generic type arguments
  (`typeChecker.getTypeArguments`), the named properties (in order, for
  `typeChecker.getPropertiesOfType` / `type.getProperty` /
  `typeChecker.getTypeOfSymbol`), and the object flag
  (`type.getFlags() & ts.TypeFlags.Object`).
* The checker operations that do not depend only on the type value
  (`getTypeAtLocation`, `getAnyType`, `getVoidType`) form the `Oracle`.
* A JavaScript runtime fault (a member access on `undefined`, which throws a
  `TypeError`) is modelled by `none` in an `Option` result; an explicit
  `undefined` value produced by the code is modelled by `none` one level
  further in (`Option` fields of the result records).
-/

namespace ApiFetch

/-- Expression nodes, restricted to the shapes the walkers inspect: `atom`
stands for any expression that is neither an await expression nor a call
expression (its source text is the stored string); `await` is a
`ts.AwaitExpression` wrapping its operand; `call` is a `ts.CallExpression`
with its callee and its positional argument list. -/
inductive Expr where
  | atom (text : String)
  | await (e : Expr)
  | call (callee : Expr) (args : List Expr)

/-- Source text of a node (`node.getText()`). Only the callee of a returned
call is ever compared against `"json"`, so the rendering of compound nodes is
schematic; what matters is that an `atom` carries its own text. -/
def Expr.getText : Expr → String
  | .atom s => s
  | .await e => "await " ++ e.getText
  | .call f _ => f.getText ++ "()"

/-- A `ts.VariableDeclaration`: binding name and optional initializer. -/
structure VarDecl where
  name : String
  initializer : Option Expr

/-- Direct statements of a function body block, restricted to the kinds the
walkers test for: a variable statement (carrying its declaration list), a
return statement (with its optional returned expression), an expression
statement, and any other statement kind. -/
inductive Stmt where
  | varStmt (decls : List VarDecl)
  | ret (e : Option Expr)
  | exprStmt (e : Expr)
  | other

/-- A `ts.SignatureDeclaration`. Of all the children `ts.forEachChild` visits
on a function node (name, parameters, type annotation, body), only a body
`ts.Block` can satisfy the `ts.isBlock` guard both walkers start with, so the
model keeps just the optional body with its ordered list of direct
statements. -/
structure FuncDecl where
  body : Option (List Stmt)

/-- Models `ts.forEachChild` iteration over a list of children: the callback
is run on each child in order and the first defined (truthy) result is
returned; children on which the callback yields nothing are skipped and the
iteration continues with the next sibling. -/
def firstSome {α β : Type} (f : α → Option β) : List α → Option β
  | [] => none
  | a :: as =>
    match f a with
    | some b => some b
    | none => firstSome f as

/-- Callback run on each `ts.VariableDeclaration` of a declaration list
(source lines 22-31): requires a present initializer that is an await
expression wrapping a call expression, and yields that call's
`arguments[1]` — which may itself be missing, in which case the callback
yields nothing and the scan continues. -/
def declSchema (d : VarDecl) : Option Expr :=
  match d.initializer with
  | some (.await (.call _ args)) => args[1]?
  | _ => none

/-- Callback run on each direct statement of the body block (source lines
21-32): only a variable statement is inspected, by scanning its declaration
list with `declSchema`. -/
def stmtSchema : Stmt → Option Expr
  | .varStmt decls => firstSome declSchema decls
  | _ => none

/-- Translation of `getSchema` (source lines 17-36): scan the function's
children for the body block, then scan the block's direct statements with
`stmtSchema`. -/
def getSchema (func : FuncDecl) : Option Expr :=
  match func.body with
  | some stmts => firstSome stmtSchema stmts
  | none => none

/-- Models `Array.prototype.join("; ")` on the rendered entry list. -/
def joinSep : List String → String
  | [] => ""
  | [x] => x
  | x :: xs => x ++ "; " ++ joinSep xs

/-- Translation of `generateUrlType` (source lines 3-8). The record argument
is modelled as its `Object.entries` list in iteration order, with values of
type `string | undefined`. After the filter every kept value is defined, so
the `getD ""` default in the interpolation is never used. -/
def generateUrlType (fields : List (String × Option String)) : String :=
  let entries := fields.filter fun p => p.2.isSome
  if entries.length = 0 then "never"
  else "\x7b " ++ joinSep (entries.map fun p => p.1 ++ ": " ++ p.2.getD "") ++ " \x7d"

/-- C1: for every handler function whose body's first statement is a variable
declaration of the form `const x = await call(a, schemaArg)` (first binding
initialized by an await-wrapped call with at least two arguments), `getSchema`
returns the call's second positional argument node. -/
theorem getSchema_first_await_call (x : String) (callee a schemaArg : Expr)
    (restArgs : List Expr) (restDecls : List VarDecl) (restStmts : List Stmt) :
    getSchema ⟨some (.varStmt (⟨x, some (.await (.call callee (a :: schemaArg :: restArgs)))⟩
      :: restDecls) :: restStmts)⟩ = some schemaArg := by
  simp [getSchema, firstSome, stmtSchema, declSchema]

/-- Concrete handler whose first statement is a plain expression statement and
whose second statement is `const x = await handle(event, schemaArg)`. -/
def c2Func : FuncDecl :=
  ⟨some [.exprStmt (.atom "setup()"),
         .varStmt [⟨"x", some (.await (.call (.atom "handle") [.atom "event", .atom "schemaArg"]))⟩]]⟩

/-- C2 counterexample: contrary to the claim, a non-matching first statement
does not make `getSchema` return absent — on `c2Func` the scan continues to
the second statement and returns its schema argument. -/
theorem getSchema_c2_counterexample :
    getSchema c2Func = some (.atom "schemaArg") ∧ getSchema c2Func ≠ none := by
  refine ⟨rfl, ?_⟩
  intro h
  rw [show getSchema c2Func = some (Expr.atom "schemaArg") from rfl] at h
  exact Option.noConfusion h

/-- C2 amended: a first statement on which the per-statement callback yields no
candidate does not abort the search; `getSchema` continues with the remaining
sibling statements (and likewise a non-matching binding does not abort the
scan of its declaration list). -/
theorem getSchema_skips_nonmatching (st : Stmt) (rest : List Stmt)
    (h : stmtSchema st = none) :
    getSchema ⟨some (st :: rest)⟩ = getSchema ⟨some rest⟩ := by
  simp only [getSchema, firstSome, h]

/-- C2 amended witness: the amended theorem applied at a concrete
expression-statement head. -/
theorem getSchema_skips_nonmatching_witness :
    stmtSchema (Stmt.exprStmt (Expr.atom "setup()")) = none ∧
    getSchema ⟨some [Stmt.exprStmt (Expr.atom "setup()"), Stmt.other]⟩ =
      getSchema ⟨some [Stmt.other]⟩ :=
  ⟨rfl, getSchema_skips_nonmatching (Stmt.exprStmt (Expr.atom "setup()")) [Stmt.other] rfl⟩

/-- C8: `generateUrlType` drops the entries whose value is absent; if no
defined entry remains the result is exactly `"never"`, otherwise it is the
brace-delimited record joining exactly the defined `name: type` pairs, in
input iteration order, with `"; "`. -/
theorem generateUrlType_spec (fields : List (String × Option String)) :
    (fields.filter (fun p => p.2.isSome) = [] → generateUrlType fields = "never")
    ∧ (∀ p ps, fields.filter (fun p => p.2.isSome) = p :: ps →
        generateUrlType fields =
          "\x7b " ++ joinSep ((p :: ps).map fun q => q.1 ++ ": " ++ q.2.getD "") ++ " \x7d") := by
  constructor
  · intro h
    simp only [generateUrlType, h]
    rfl
  · intro p ps h
    simp only [generateUrlType, h]
    rw [if_neg (by simp)]

/-- C8 witness: the empty mapping and a mapping whose single value is absent
both render as `"never"`, and a mixed mapping renders exactly its defined
fields. -/
theorem generateUrlType_spec_witness :
    generateUrlType [] = "never" ∧
    generateUrlType [("a", none)] = "never" ∧
    generateUrlType [("a", some "string"), ("b", none)] =
      "\x7b " ++ joinSep ([("a", some "string")].map fun q => q.1 ++ ": " ++ q.2.getD "") ++ " \x7d" :=
  ⟨(generateUrlType_spec []).1 rfl,
   (generateUrlType_spec [("a", none)]).1 rfl,
   (generateUrlType_spec [("a", some "string"), ("b", none)]).2 ("a", some "string") [] rfl⟩

/-- A `ts.Type` as observed through the checker queries used by this file: its
canonical textual rendering (`typeChecker.typeToString`), its base types
(`type.getBaseTypes()`, `undefined` for non-interface types), its generic type
arguments (`typeChecker.getTypeArguments`, empty for a type that is not a
generic instantiation), its named properties in declaration order
(`typeChecker.getPropertiesOfType` / `type.getProperty` paired with
`typeChecker.getTypeOfSymbol`), and whether `type.getFlags()` has the
`ts.TypeFlags.Object` bit. Types are immutable values, so these observations
are intrinsic to the value. -/
inductive Ty where
  | mk (render : String) (baseTypes : Option (List Ty)) (args : List Ty)
      (props : List (String × Ty)) (objFlag : Bool)

/-- Canonical rendering of the type (`typeChecker.typeToString`). -/
def Ty.render : Ty → String
  | .mk r _ _ _ _ => r

/-- Models `type.getBaseTypes()`. -/
def Ty.baseTypes : Ty → Option (List Ty)
  | .mk _ b _ _ _ => b

/-- Models `typeChecker.getTypeArguments(type as ts.TypeReference)`. -/
def Ty.args : Ty → List Ty
  | .mk _ _ a _ _ => a

/-- Models `typeChecker.getPropertiesOfType` together with
`typeChecker.getTypeOfSymbol`: the named properties in order. -/
def Ty.props : Ty → List (String × Ty)
  | .mk _ _ _ p _ => p

/-- Models the test `type.getFlags() & ts.TypeFlags.Object`. -/
def Ty.objFlag : Ty → Bool
  | .mk _ _ _ _ f => f

/-- Models `typeChecker.typeToString`. -/
def typeToString (t : Ty) : String := t.render

/-- The checker capabilities that are not functions of a type value alone:
`getTypeAtLocation`, `getAnyType` and `getVoidType`. -/
structure Oracle where
  typeAt : Expr → Ty
  anyType : Ty
  voidType : Ty

/-- Guard `ts.isReturnStatement(child) && child.expression` (source line 44):
yields the returned expression of a return statement that carries one. -/
def retExprOf : Stmt → Option Expr
  | .ret (some e) => some e
  | _ => none

/-- Body of the per-statement callback of `getReturnType` for a return
statement carrying expression `e` (source lines 45-62), acting on the mutable
`returnType` accumulator: a call whose callee text is `"json"` and which has a
first argument records that argument's inferred type; afterwards, if no
candidate has been recorded yet, the any type is recorded. -/
def retExprStep (oracle : Oracle) (acc : Option Ty) (e : Expr) : Option Ty :=
  let acc1 :=
    match e with
    | .call f args =>
      if f.getText == "json" then
        match args[0]? with
        | some a => some (oracle.typeAt a)
        | none => acc
      else acc
    | _ => acc
  some (acc1.getD oracle.anyType)

/-- Per-statement callback of `getReturnType` (source lines 43-64): statements
that are not return statements with an expression leave the accumulator
unchanged. -/
def retStep (oracle : Oracle) (acc : Option Ty) (s : Stmt) : Option Ty :=
  match retExprOf s with
  | some e => retExprStep oracle acc e
  | none => acc

/-- Translation of `getReturnType` (source lines 38-69): fold the callback
over the body block's direct statements (both `ts.forEachChild` calls ignore
their callback's result, so every child is visited), then default to the void
type when no candidate was recorded. -/
def getReturnType (oracle : Oracle) (func : FuncDecl) : Ty :=
  ((func.body.getD []).foldl (retStep oracle) none).getD oracle.voidType

/-- The `SchemaDescriptor` record produced by `getSchemaFromFunction`. -/
structure SchemaDescriptor where
  schema : Option Expr
  returnType : Ty

/-- Translation of `getSchemaFromFunction` (source lines 10-15). -/
def getSchemaFromFunction (oracle : Oracle) (func : FuncDecl) : SchemaDescriptor :=
  ⟨getSchema func, getReturnType oracle func⟩

/-- Returned expressions of the return statements among a block's direct
statements, in order. -/
def returnStmts (stmts : List Stmt) : List Expr :=
  stmts.filterMap retExprOf

/-- Specification-side accumulator tracking the argument of the last
`json(arg)` call returned so far. -/
def jsonArgStep (acc : Option Expr) (e : Expr) : Option Expr :=
  match e with
  | .call f args =>
    if f.getText == "json" then
      match args[0]? with
      | some a => some a
      | none => acc
    else acc
  | _ => acc

/-- Argument of the last returned `json(arg)` call in a list of returned
expressions, if any. -/
def lastJsonArg (es : List Expr) : Option Expr := es.foldl jsonArgStep none

/-- Specification-side description of `getReturnType`: the inferred type of
the argument of the last returned `json(arg)` call when one exists, the any
type when at least one return statement carries an expression but none is a
`json` call with an argument, and the void type when no return statement
carries an expression. -/
def returnTypeSpec (oracle : Oracle) (es : List Expr) : Ty :=
  match lastJsonArg es with
  | some v => oracle.typeAt v
  | none =>
    match es with
    | [] => oracle.voidType
    | _ :: _ => oracle.anyType

theorem foldl_retStep_eq (oracle : Oracle) (stmts : List Stmt) (acc : Option Ty) :
    stmts.foldl (retStep oracle) acc = (returnStmts stmts).foldl (retExprStep oracle) acc := by
  induction stmts generalizing acc with
  | nil => rfl
  | cons s rest ih =>
    cases h : retExprOf s <;>
      simp [returnStmts, List.filterMap_cons, h, retStep, ih, List.foldl_cons]

theorem jsonArgStep_some (v : Expr) (e : Expr) : ∃ w, jsonArgStep (some v) e = some w := by
  cases e with
  | atom s => exact ⟨v, rfl⟩
  | await e1 => exact ⟨v, rfl⟩
  | call f args =>
    cases hj : f.getText == "json" with
    | false => exact ⟨v, by simp [jsonArgStep, hj]⟩
    | true =>
      cases ha : args[0]? with
      | some a => exact ⟨a, by simp [jsonArgStep, hj, ha]⟩
      | none => exact ⟨v, by simp [jsonArgStep, hj, ha]⟩

theorem foldl_jsonArgStep_some (es : List Expr) (v : Expr) :
    ∃ w, es.foldl jsonArgStep (some v) = some w := by
  induction es generalizing v with
  | nil => exact ⟨v, rfl⟩
  | cons e rest ih =>
    obtain ⟨w, hw⟩ := jsonArgStep_some v e
    rw [List.foldl_cons, hw]
    exact ih w

theorem retExprStep_of_jsonArgStep_none (oracle : Oracle) (acct : Option Ty)
    (accj : Option Expr) (e : Expr) (h : jsonArgStep accj e = none) :
    retExprStep oracle acct e = some (acct.getD oracle.anyType) := by
  cases e with
  | atom s => rfl
  | await e1 => rfl
  | call f args =>
    cases hj : f.getText == "json" with
    | false => simp [retExprStep, hj]
    | true =>
      cases ha : args[0]? with
      | some a => simp [jsonArgStep, hj, ha] at h
      | none => simp [retExprStep, hj, ha]

theorem foldl_retExprStep_char (oracle : Oracle) (es : List Expr)
    (accj : Option Expr) (acct : Option Ty)
    (hc : ∀ v, accj = some v → acct = some (oracle.typeAt v)) :
    es.foldl (retExprStep oracle) acct =
      match es.foldl jsonArgStep accj with
      | some v => some (oracle.typeAt v)
      | none => if es.isEmpty then acct else some (acct.getD oracle.anyType) := by
  induction es generalizing accj acct with
  | nil =>
    cases haccj : accj with
    | none => rfl
    | some v => simpa using hc v haccj
  | cons e rest ih =>
    have hc2 : ∀ v, jsonArgStep accj e = some v →
        retExprStep oracle acct e = some (oracle.typeAt v) := by
      intro v hv
      cases e with
      | atom s =>
        have hacc : accj = some v := hv
        simp [retExprStep, hc v hacc]
      | await e1 =>
        have hacc : accj = some v := hv
        simp [retExprStep, hc v hacc]
      | call f args =>
        cases hj : f.getText == "json" with
        | false =>
          simp [jsonArgStep, hj] at hv
          simp [retExprStep, hj, hc v hv]
        | true =>
          cases ha : args[0]? with
          | some a =>
            simp [jsonArgStep, hj, ha] at hv
            subst hv
            simp [retExprStep, hj, ha]
          | none =>
            simp [jsonArgStep, hj, ha] at hv
            simp [retExprStep, hj, ha, hc v hv]
    rw [List.foldl_cons, List.foldl_cons, ih (jsonArgStep accj e) (retExprStep oracle acct e) hc2]
    cases hres : rest.foldl jsonArgStep (jsonArgStep accj e) with
    | some v => simp
    | none =>
      have hstep : jsonArgStep accj e = none := by
        cases hse : jsonArgStep accj e with
        | none => rfl
        | some w =>
          obtain ⟨u, hu⟩ := foldl_jsonArgStep_some rest w
          rw [hse, hu] at hres
          exact Option.noConfusion hres
      have he := retExprStep_of_jsonArgStep_none oracle acct accj e hstep
      rw [he]
      cases rest with
      | nil => simp
      | cons r rs => simp

/-- Shared characterization of `getReturnType` in terms of `returnTypeSpec`. -/
theorem getReturnType_run (oracle : Oracle) (func : FuncDecl) (stmts : List Stmt)
    (hb : func.body = some stmts) :
    getReturnType oracle func = returnTypeSpec oracle (returnStmts stmts) := by
  unfold getReturnType returnTypeSpec lastJsonArg
  rw [hb]
  simp only [Option.getD_some]
  rw [foldl_retStep_eq]
  rw [foldl_retExprStep_char oracle (returnStmts stmts) none none
    (by intro v hv; exact Option.noConfusion hv)]
  cases hl : (returnStmts stmts).foldl jsonArgStep none with
  | some v => simp
  | none =>
    cases hre : returnStmts stmts with
    | nil => simp
    | cons r rs => simp

/-- C3: `getReturnType` always yields a concrete type (its result type here is
`Ty`, not an optional) and obeys the case split of the claim: a body whose
single expression-carrying return statement is `return json(v)` yields the
inferred type of `v`; a body whose single expression-carrying return statement
calls a function not textually named `json` yields the any type; a body with
no expression-carrying return statement yields the void type. -/
theorem getReturnType_cases (oracle : Oracle) (func : FuncDecl) (stmts : List Stmt)
    (hb : func.body = some stmts) :
    (∀ v restArgs, returnStmts stmts = [.call (.atom "json") (v :: restArgs)] →
        getReturnType oracle func = oracle.typeAt v)
    ∧ (∀ f args, returnStmts stmts = [.call f args] → f.getText ≠ "json" →
        getReturnType oracle func = oracle.anyType)
    ∧ (returnStmts stmts = [] → getReturnType oracle func = oracle.voidType) := by
  refine ⟨?_, ?_, ?_⟩
  · intro v restArgs hr
    rw [getReturnType_run oracle func stmts hb, hr]
    simp [returnTypeSpec, lastJsonArg, jsonArgStep, Expr.getText]
  · intro f args hr hf
    rw [getReturnType_run oracle func stmts hb, hr]
    have hbeq : (f.getText == "json") = false := by
      simp [hf]
    cases ha : args[0]? with
    | some a => simp [returnTypeSpec, lastJsonArg, jsonArgStep, hbeq, ha]
    | none => simp [returnTypeSpec, lastJsonArg, jsonArgStep, hbeq, ha]
  · intro hr
    rw [getReturnType_run oracle func stmts hb, hr]
    simp [returnTypeSpec, lastJsonArg]

/-- Concrete types and oracle used by the concrete evaluations below. -/
def tyA : Ty := .mk "A" none [] [] false

/-- The oracle's any type used in concrete evaluations. -/
def anyTy : Ty := .mk "any" none [] [] false

/-- The oracle's void type used in concrete evaluations. -/
def voidTy : Ty := .mk "void" none [] [] false

/-- A concrete oracle: every node has inferred type `tyA`. -/
def oracle0 : Oracle := ⟨fun _ => tyA, anyTy, voidTy⟩

/-- Handler body used for C3's witness, case `return json(v)`. -/
def c3aFunc : FuncDecl := ⟨some [.ret (some (.call (.atom "json") [.atom "v"]))]⟩

/-- Handler body used for C3's witness, case `return someOtherFn(x)`. -/
def c3bFunc : FuncDecl := ⟨some [.ret (some (.call (.atom "someOtherFn") [.atom "x"]))]⟩

/-- Handler body used for C3's witness, case without a return statement. -/
def c3cFunc : FuncDecl := ⟨some [.exprStmt (.atom "doWork()")]⟩

/-- C3 witness: the three cases of the claim applied at concrete handlers. -/
theorem getReturnType_cases_witness :
    getReturnType oracle0 c3aFunc = oracle0.typeAt (.atom "v") ∧
    getReturnType oracle0 c3bFunc = oracle0.anyType ∧
    getReturnType oracle0 c3cFunc = oracle0.voidType :=
  ⟨(getReturnType_cases oracle0 c3aFunc _ rfl).1 (.atom "v") [] rfl,
   (getReturnType_cases oracle0 c3bFunc _ rfl).2.1 (.atom "someOtherFn") [.atom "x"] rfl
     (by decide),
   (getReturnType_cases oracle0 c3cFunc _ rfl).2.2 rfl⟩

/-- Handler body with `return json(a)` followed by `return someOtherFn(b)`. -/
def c4Func : FuncDecl :=
  ⟨some [.ret (some (.call (.atom "json") [.atom "a"])),
         .ret (some (.call (.atom "someOtherFn") [.atom "b"]))]⟩

/-- C4 counterexample: for `return json(a)` followed by `return someOtherFn(b)`
the last return statement does not win — the result stays the inferred type of
`a` instead of the any type, because the fallback to the any type only fires
when no candidate has been recorded yet. -/
theorem getReturnType_c4_counterexample :
    getReturnType oracle0 c4Func = oracle0.typeAt (.atom "a") ∧
    getReturnType oracle0 c4Func ≠ oracle0.anyType := by
  constructor
  · rfl
  · intro h
    have h2 : tyA = anyTy := h
    have h3 := congrArg Ty.render h2
    exact absurd h3 (by decide)

/-- C4 corrected: every expression-carrying return statement among the block's
direct statements is visited, but only a later `json(arg)` call overwrites the
recorded candidate; a non-`json` return leaves an earlier candidate in place
because the any-type fallback fires only when no candidate exists yet. The
result is therefore the inferred type of the argument of the last returned
`json(arg)` call, else the any type when some return carries an expression,
else the void type. -/
theorem getReturnType_last_json (oracle : Oracle) (func : FuncDecl) (stmts : List Stmt)
    (hb : func.body = some stmts) :
    getReturnType oracle func = returnTypeSpec oracle (returnStmts stmts) :=
  getReturnType_run oracle func stmts hb

/-- C4 amended witness: the amended theorem applied at the concrete two-return
handler, evaluating to the inferred type of `a`. -/
theorem getReturnType_last_json_witness :
    getReturnType oracle0 c4Func =
      returnTypeSpec oracle0 (returnStmts [.ret (some (.call (.atom "json") [.atom "a"])),
        .ret (some (.call (.atom "someOtherFn") [.atom "b"]))]) :=
  getReturnType_last_json oracle0 c4Func _ rfl

/-- Models the optional chain `type.getBaseTypes()?.[0]` (source line 121). -/
def baseHead (t : Ty) : Option Ty := t.baseTypes.bind List.head?

/-- Translation of `getZodTypeToString` (source lines 120-138). A `none`
result models the `TypeError` the JavaScript code throws on a member access
on `undefined`: in the primary path when the first base type has no third
generic argument (`typeToString` applied to a missing element), and in the
final fallback when the type has no generic argument at all, so the recursive
call receives `undefined` and faults on `undefined.getBaseTypes()`. The
`[] => none` arm of the length-2 branch is unreachable because that branch is
guarded by the length test. -/
def getZodTypeToString : Ty → Option String
  | .mk _ baseTypes args _ _ =>
    match baseTypes.bind List.head? with
    | some zodType => (zodType.args[2]?).map typeToString
    | none =>
      if args.length = 5 then (args[4]?).map typeToString
      else if args.length = 2 then
        match args with
        | a0 :: _ => (getZodTypeToString a0).map (fun s => s ++ "[]")
        | [] => none
      else
        match args with
        | a0 :: _ => getZodTypeToString a0
        | [] => none

/-- Decides whether unwrapping a type completes without a runtime fault: the
primary path needs a third generic argument on the first base type, the
length-5 branch always completes, and both recursive branches complete
exactly when unwrapping the first generic argument does; a type with no base
type and no generic argument faults. -/
def unwrapSafe : Ty → Bool
  | .mk _ baseTypes args _ _ =>
    match baseTypes.bind List.head? with
    | some zodType => (zodType.args[2]?).isSome
    | none =>
      if args.length = 5 then true
      else
        match args with
        | a0 :: _ => unwrapSafe a0
        | [] => false

/-- C5: the dispatch of the generic-type unwrapper. If the type has a first
base type, the result renders that base type's third generic argument; with
no base type and exactly 5 generic arguments, it renders the 5th (index 4)
argument; with exactly 2 arguments it recursively unwraps the first argument
and appends `"[]"`; with any other argument count (provided a first argument
exists) it recursively unwraps the first argument. -/
theorem getZodTypeToString_cases (t : Ty) :
    (∀ zodType u, baseHead t = some zodType → zodType.args[2]? = some u →
        getZodTypeToString t = some (typeToString u))
    ∧ (∀ u, baseHead t = none → t.args.length = 5 → t.args[4]? = some u →
        getZodTypeToString t = some (typeToString u))
    ∧ (∀ a0 a1, baseHead t = none → t.args = [a0, a1] →
        getZodTypeToString t = (getZodTypeToString a0).map (fun s => s ++ "[]"))
    ∧ (∀ a0 rest, baseHead t = none → t.args = a0 :: rest →
        t.args.length ≠ 5 → t.args.length ≠ 2 →
        getZodTypeToString t = getZodTypeToString a0) := by
  obtain ⟨r, baseTypes, args, props, fl⟩ := t
  refine ⟨?_, ?_, ?_, ?_⟩
  · intro zodType u hbh hu
    simp only [baseHead, Ty.baseTypes] at hbh
    cases args with
    | nil => simp [getZodTypeToString.eq_2, hbh, hu]
    | cons a0 tail => simp [getZodTypeToString.eq_1, hbh, hu]
  · intro u hbh hlen hu
    simp only [baseHead, Ty.baseTypes] at hbh
    simp only [Ty.args] at hlen hu
    cases args with
    | nil => simp at hlen
    | cons a0 tail =>
      rw [getZodTypeToString.eq_1]
      simp only [hbh]
      rw [if_pos hlen, hu]
      rfl
  · intro a0 a1 hbh hargs
    simp only [baseHead, Ty.baseTypes] at hbh
    simp only [Ty.args] at hargs
    subst hargs
    rw [getZodTypeToString.eq_1]
    simp [hbh]
  · intro a0 rest hbh hargs h5 h2
    simp only [baseHead, Ty.baseTypes] at hbh
    simp only [Ty.args] at hargs h5 h2
    subst hargs
    rw [getZodTypeToString.eq_1]
    simp only [hbh]
    rw [if_neg h5, if_neg h2]

/-- Concrete validation-wrapper types for the C5 witness: `zodStrTy` has a
base type whose third generic argument renders as `"string"`; `objTy5` has 5
generic arguments; `arrTy2` has 2; `wrapTy1` has 1. -/
def outStrTy : Ty := .mk "string" none [] [] false

/-- Base type carrying the output type as its third generic argument. -/
def zodBaseTy : Ty := .mk "ZodType" none [.mk "t0" none [] [] false, .mk "t1" none [] [] false, outStrTy] [] false

/-- A wrapper type on the primary path. -/
def zodStrTy : Ty := .mk "ZodString" (some [zodBaseTy]) [] [] false

/-- A type with exactly 5 generic arguments, the 5th rendering as `"out"`. -/
def objTy5 : Ty := .mk "ZodObject" none
  [.mk "g0" none [] [] false, .mk "g1" none [] [] false, .mk "g2" none [] [] false,
   .mk "g3" none [] [] false, .mk "out" none [] [] false] [] false

/-- A type with exactly 2 generic arguments, the first being `zodStrTy`. -/
def arrTy2 : Ty := .mk "ZodArray" none [zodStrTy, .mk "g1" none [] [] false] [] false

/-- A type with exactly 1 generic argument, that argument being `zodStrTy`. -/
def wrapTy1 : Ty := .mk "ZodOptional" none [zodStrTy] [] false

/-- C5 witness: the four branches of the dispatch applied at concrete types. -/
theorem getZodTypeToString_cases_witness :
    getZodTypeToString zodStrTy = some (typeToString outStrTy) ∧
    getZodTypeToString objTy5 = some (typeToString (Ty.mk "out" none [] [] false)) ∧
    getZodTypeToString arrTy2 = (getZodTypeToString zodStrTy).map (fun s => s ++ "[]") ∧
    getZodTypeToString wrapTy1 = getZodTypeToString zodStrTy :=
  ⟨(getZodTypeToString_cases zodStrTy).1 zodBaseTy outStrTy rfl rfl,
   (getZodTypeToString_cases objTy5).2.1 (Ty.mk "out" none [] [] false) rfl rfl rfl,
   (getZodTypeToString_cases arrTy2).2.2.1 zodStrTy (Ty.mk "g1" none [] [] false) rfl rfl,
   (getZodTypeToString_cases wrapTy1).2.2.2 zodStrTy [] rfl rfl (by decide) (by decide)⟩

/-- A type with no base type and no generic arguments, as the checker yields
for a primitive such as `string`. -/
def noArgTy : Ty := .mk "string" none [] [] false

/-- C9 counterexample: the best-effort fallback is not safe when the
generic-argument list has no first element — on `noArgTy` the unwrapper
dereferences a missing value and faults (modelled by `none`) instead of
producing a value or an explicit absent. -/
theorem getZodTypeToString_c9_counterexample :
    getZodTypeToString noArgTy = none ∧ unwrapSafe noArgTy = false := by
  constructor
  · rw [show noArgTy = Ty.mk "string" none [] [] false from rfl, getZodTypeToString.eq_2]
    rfl
  · rw [show noArgTy = Ty.mk "string" none [] [] false from rfl, unwrapSafe.eq_2]
    rfl

/-- C9 amended: the unwrapper completes without fault exactly on the types
`unwrapSafe` accepts — those whose fallback recursion always reaches a first
base type, a 5-argument shape, or descends through a present first argument;
it faults on a type with no base type and no generic arguments. (`getSchema`,
`getReturnType` and `generateUrlType` are total by construction, as their
types in this development show.) -/
theorem getZodTypeToString_isSome_iff_unwrapSafe (t : Ty) :
    (getZodTypeToString t).isSome = unwrapSafe t := by
  induction t using getZodTypeToString.induct with
  | case1 r baseTypes args props objFlag zodType hbh =>
    cases args with
    | nil => simp [getZodTypeToString.eq_2, unwrapSafe.eq_2, hbh]
    | cons a0 tail => simp [getZodTypeToString.eq_1, unwrapSafe.eq_1, hbh]
  | case2 r baseTypes args props objFlag hbh h5 =>
    cases args with
    | nil => simp at h5
    | cons a0 tail =>
      simp only [List.length_cons] at h5
      simp [getZodTypeToString.eq_1, unwrapSafe.eq_1, hbh, h5]
  | case3 r baseTypes props objFlag hbh a0 tail h5 h2 ih =>
    simp [getZodTypeToString.eq_1, unwrapSafe.eq_1, hbh, h5, h2, ih]
  | case4 r baseTypes props objFlag hbh h5 h2 => simp at h2
  | case5 r baseTypes props objFlag hbh a0 tail h5 h2 ih =>
    simp only [List.length_cons] at h5 h2
    have h4 : tail.length ≠ 4 := by omega
    have h1 : tail.length ≠ 1 := by omega
    simp [getZodTypeToString.eq_1, unwrapSafe.eq_1, hbh, h4, h1, ih]
  | case6 r baseTypes props objFlag hbh h5 h2 =>
    simp [getZodTypeToString.eq_2, unwrapSafe.eq_2, hbh]

/-- Body of the arrow function mapped over the schema type's properties
(source lines 89-97): the reserved `searchParams` property is skipped
(`return null`, modelled `some none`), a property whose unwrapped string is
falsy — the empty string — is skipped as well, and otherwise the
`name: type` entry is produced. An outer `none` models a `TypeError` thrown
inside `getZodTypeToString`, which aborts the whole `parseSchema` call. -/
def propEntry (p : String × Ty) : Option (Option String) :=
  if p.1 == "searchParams" then some none
  else
    match getZodTypeToString p.2 with
    | none => none
    | some s => if s == "" then some none else some (some (p.1 ++ ": " ++ s))

/-- Sequential `.map` with exception propagation: an element on which the
function faults aborts the whole traversal, mirroring a thrown exception. -/
def mapCrash {α β : Type} (f : α → Option β) : List α → Option (List β)
  | [] => some []
  | a :: as =>
    match f a with
    | none => none
    | some b => (mapCrash f as).map (fun bs => b :: bs)

/-- Kept entries of the body record for a schema input type: the mapped
entries with the skipped ones removed (`.filter((t) => t !== null)`, source
line 98), or `none` when unwrapping some property type faults. -/
def bodyPairs (zt : Ty) : Option (List String) :=
  (mapCrash propEntry zt.props).map (fun l => l.filterMap id)

/-- The body template literal of `parseSchema` (source lines 87-99). -/
def bodyString (zt : Ty) : Option String :=
  (bodyPairs zt).map (fun ps => "\x7b " ++ joinSep ps ++ " \x7d")

/-- Models `data.schema ? typeChecker.getTypeAtLocation(data.schema) :
undefined` (source line 82). -/
def schemaType (oracle : Oracle) (data : SchemaDescriptor) : Option Ty :=
  data.schema.map oracle.typeAt

/-- Models `zodInputType.getProperty("searchParams")` followed by
`typeChecker.getTypeOfSymbol` (source lines 102-104): the type of the first
property named `searchParams`, if any. -/
def spProp (zt : Ty) : Option Ty :=
  firstSome (fun p => if p.1 == "searchParams" then some p.2 else none) zt.props

/-- The `body` computation of `parseSchema` (source lines 84-99), in its
exception layer: `some none` is an explicit absent body (`skipBody` set or no
schema type), `some (some s)` a computed body string, and the outer `none` a
fault while unwrapping a property type. -/
def bodyOpt (oracle : Oracle) (data : SchemaDescriptor) (skipBody : Bool) :
    Option (Option String) :=
  if skipBody then some none
  else
    match schemaType oracle data with
    | none => some none
    | some zt => (bodyString zt).map some

/-- The `searchParams` computation of `parseSchema` (source lines 101-110):
absent unless the schema type has a `searchParams` property whose type has
the object flag, in which case that type is unwrapped — and a fault in the
unwrapping aborts the call (outer `none`). -/
def spOpt (zodInputType : Option Ty) : Option (Option String) :=
  match zodInputType.bind spProp with
  | none => some none
  | some spTy =>
    if spTy.objFlag then
      match getZodTypeToString spTy with
      | none => none
      | some s => some (some s)
    else some none

/-- The record `parseSchema` returns (source line 117). -/
structure ParsedSchema where
  body : Option String
  searchParams : Option String
  returnType : Option String

/-- Translation of `parseSchema` (source lines 77-118). The final record
replaces a body equal to the empty record string by absent (the loose
comparison `body != "{  }"` on line 117 keeps an `undefined` body absent);
the guard `if (data.returnType)` on line 113 is always taken because the
descriptor's `returnType` field holds a type value, which is truthy. An
overall `none` models the propagation of a `TypeError` thrown while
unwrapping a property type or the `searchParams` type. -/
def parseSchema (oracle : Oracle) (data : SchemaDescriptor)
    (skipBody : Bool := false) : Option ParsedSchema :=
  match bodyOpt oracle data skipBody, spOpt (schemaType oracle data) with
  | some body, some searchParams =>
    some { body := if body == some "\x7b  \x7d" then none else body
           searchParams := searchParams
           returnType := some (typeToString data.returnType) }
  | _, _ => none

theorem joinSep_length_ge (x : String) (xs : List String) :
    x.length ≤ (joinSep (x :: xs)).length := by
  cases xs with
  | nil => exact Nat.le_refl _
  | cons y ys =>
    have h : joinSep (x :: y :: ys) = x ++ "; " ++ joinSep (y :: ys) := rfl
    rw [h, String.length_append, String.length_append]
    omega

theorem brace_eq_empty_iff (s : String) :
    ("\x7b " ++ s ++ " \x7d" = "\x7b  \x7d") ↔ s = "" := by
  constructor
  · intro h
    have hlen := congrArg String.length h
    rw [String.length_append, String.length_append] at hlen
    have h2 : ("\x7b " : String).length = 2 := rfl
    have h3 : (" \x7d" : String).length = 2 := rfl
    have h4 : ("\x7b  \x7d" : String).length = 4 := rfl
    rw [h2, h3, h4] at hlen
    have h0 : s.length = 0 := by omega
    cases s with
    | mk data =>
      cases data with
      | nil => rfl
      | cons c cs => simp [String.length] at h0
  · intro h
    rw [h]
    rfl

theorem propEntry_entry_length (p : String × Ty) (s : String)
    (h : propEntry p = some (some s)) : 2 ≤ s.length := by
  unfold propEntry at h
  cases hn : p.1 == "searchParams" with
  | true => simp [hn] at h
  | false =>
    simp only [hn, Bool.false_eq_true, if_false] at h
    cases hz : getZodTypeToString p.2 with
    | none => rw [hz] at h; exact Option.noConfusion h
    | some s0 =>
      rw [hz] at h
      cases he : s0 == "" with
      | true => simp [he] at h
      | false =>
        simp only [he, Bool.false_eq_true, if_false, Option.some.injEq] at h
        rw [← h, String.length_append, String.length_append]
        have : (": " : String).length = 2 := rfl
        omega

theorem mapCrash_entries_length (props : List (String × Ty)) (l : List String)
    (h : (mapCrash propEntry props).map (fun l0 => l0.filterMap id) = some l) :
    ∀ s ∈ l, 2 ≤ s.length := by
  induction props generalizing l with
  | nil =>
    simp only [mapCrash, Option.map_some', List.filterMap_nil, Option.some.injEq] at h
    subst h
    intro s hs
    simp at hs
  | cons p ps ih =>
    cases hp : propEntry p with
    | none => simp [mapCrash, hp] at h
    | some b =>
      simp only [mapCrash, hp] at h
      cases hm : mapCrash propEntry ps with
      | none => rw [hm] at h; simp at h
      | some bs =>
        rw [hm] at h
        simp only [Option.map_some', Option.some.injEq] at h
        have hih := ih (bs.filterMap id) (by rw [hm]; rfl)
        cases b with
        | none =>
          subst h
          intro s hs
          simp only [List.filterMap_cons] at hs
          exact hih s hs
        | some e =>
          subst h
          intro s hs
          simp only [List.filterMap_cons, id, List.mem_cons] at hs
          cases hs with
          | inl he => exact he ▸ propEntry_entry_length p e hp
          | inr hmem => exact hih s hmem

theorem bodyPairs_render_empty_iff (zt : Ty) (ps : List String)
    (hp : bodyPairs zt = some ps) :
    ("\x7b " ++ joinSep ps ++ " \x7d" = "\x7b  \x7d") ↔ ps = [] := by
  rw [brace_eq_empty_iff]
  constructor
  · intro hj
    cases ps with
    | nil => rfl
    | cons x xs =>
      have hx : 2 ≤ x.length :=
        mapCrash_entries_length zt.props (x :: xs) hp x (List.mem_cons_self x xs)
      have hge := joinSep_length_ge x xs
      rw [hj] at hge
      have h0 : ("" : String).length = 0 := rfl
      rw [h0] at hge
      omega
  · intro hps
    subst hps
    rfl

/-- Shape of every completed `parseSchema` call: both the body layer and the
`searchParams` layer completed, and the record's fields are determined by
their values. -/
theorem parseSchema_eq_some (oracle : Oracle) (data : SchemaDescriptor)
    (skipBody : Bool) (r : ParsedSchema)
    (h : parseSchema oracle data skipBody = some r) :
    ∃ body sp, bodyOpt oracle data skipBody = some body ∧
      spOpt (schemaType oracle data) = some sp ∧
      r.body = (if body == some "\x7b  \x7d" then none else body) ∧
      r.searchParams = sp ∧
      r.returnType = some (typeToString data.returnType) := by
  unfold parseSchema at h
  cases hbo : bodyOpt oracle data skipBody with
  | none => rw [hbo] at h; exact absurd h (by simp)
  | some body =>
    cases hsp : spOpt (schemaType oracle data) with
    | none => rw [hbo, hsp] at h; exact absurd h (by simp)
    | some sp =>
      rw [hbo, hsp] at h
      simp only [Option.some.injEq] at h
      exact ⟨body, sp, rfl, rfl, by rw [← h], by rw [← h], by rw [← h]⟩

/-- C6: the `body` field of a completed `parseSchema` call is absent exactly
when `skipBody` is set, or no schema node is present, or every property of
the schema's inferred type is excluded (the kept entry list is empty, so the
rendered record would be the empty record); otherwise it is the
brace-delimited record joining, with `"; "`, the `name: type` entries of
every property except the reserved `searchParams` one and except those whose
unwrapping yields no result (the empty string). -/
theorem parseSchema_body_spec (oracle : Oracle) (data : SchemaDescriptor)
    (skipBody : Bool) (r : ParsedSchema)
    (h : parseSchema oracle data skipBody = some r) :
    (r.body = none ↔ (skipBody = true ∨ data.schema = none ∨
        ∃ zt, schemaType oracle data = some zt ∧ bodyPairs zt = some []))
    ∧ (∀ zt ps, skipBody = false → schemaType oracle data = some zt →
        bodyPairs zt = some ps → ps ≠ [] →
        r.body = some ("\x7b " ++ joinSep ps ++ " \x7d")) := by
  obtain ⟨body, sp, hbo, hsp, hb, hs, hr⟩ := parseSchema_eq_some oracle data skipBody r h
  cases skipBody with
  | true =>
    have hbody : none = body :=
      Option.some.inj ((show bodyOpt oracle data true = some none from rfl).symm.trans hbo)
    subst hbody
    refine ⟨?_, ?_⟩
    · rw [hb]
      simp
    · intro zt ps hskip
      exact absurd hskip (by simp)
  | false =>
    have hbo2 : (match schemaType oracle data with
        | none => some none
        | some zt => (bodyString zt).map some) = some body := by
      rw [← hbo]
      rfl
    cases hst : schemaType oracle data with
    | none =>
      rw [hst] at hbo2
      have hbody : none = body := Option.some.inj hbo2
      subst hbody
      have hds : data.schema = none := by
        unfold schemaType at hst
        cases hd : data.schema with
        | none => rfl
        | some e => rw [hd] at hst; exact absurd hst (by simp)
      refine ⟨?_, ?_⟩
      · rw [hb]
        simp [hds]
      · intro zt ps hskip hzt hbp hne
        exact absurd hzt (by simp)
    | some zt0 =>
      rw [hst] at hbo2
      have hbo3 : (bodyString zt0).map some = some body := hbo2
      cases hbs : bodyString zt0 with
      | none => rw [hbs] at hbo3; exact absurd hbo3 (by simp)
      | some bs =>
        rw [hbs] at hbo3
        simp only [Option.map_some', Option.some.injEq] at hbo3
        subst hbo3
        unfold bodyString at hbs
        cases hbp0 : bodyPairs zt0 with
        | none => rw [hbp0] at hbs; exact absurd hbs (by simp)
        | some ps0 =>
          rw [hbp0] at hbs
          simp only [Option.map_some', Option.some.injEq] at hbs
          subst hbs
          have hiff := bodyPairs_render_empty_iff zt0 ps0 hbp0
          cases ps0 with
          | nil =>
            have hbnone : r.body = none := by rw [hb]; rfl
            refine ⟨?_, ?_⟩
            · rw [hbnone]
              constructor
              · intro _
                exact Or.inr (Or.inr ⟨zt0, rfl, hbp0⟩)
              · intro _
                rfl
            · intro zt ps hskip hzt hbp hne
              have hz : zt = zt0 := (Option.some.inj hzt).symm
              subst hz
              exact absurd (Option.some.inj (hbp.symm.trans hbp0)) hne
          | cons x xs =>
            have hne2 : ¬("\x7b " ++ joinSep (x :: xs) ++ " \x7d" = "\x7b  \x7d") := by
              intro hc
              exact List.noConfusion (hiff.mp hc)
            have hbeq : ((some ("\x7b " ++ joinSep (x :: xs) ++ " \x7d") : Option String) ==
                some "\x7b  \x7d") = false := by
              rw [beq_eq_false_iff_ne]
              intro hc
              exact hne2 (Option.some.inj hc)
            have hbval : r.body = some ("\x7b " ++ joinSep (x :: xs) ++ " \x7d") := by
              rw [hb]
              simp only [hbeq, Bool.false_eq_true, if_false]
            refine ⟨?_, ?_⟩
            · rw [hbval]
              constructor
              · intro hcc
                exact absurd hcc (by simp)
              · intro hr2
                exfalso
                rcases hr2 with h1 | h2 | ⟨zt, hzt, hbp⟩
                · exact absurd h1 (by simp)
                · unfold schemaType at hst
                  rw [h2] at hst
                  exact absurd hst (by simp)
                · have hz : zt = zt0 := (Option.some.inj hzt).symm
                  subst hz
                  exact List.noConfusion (Option.some.inj (hbp0.symm.trans hbp))
            · intro zt ps hskip hzt hbp hne
              have hz : zt = zt0 := (Option.some.inj hzt).symm
              subst hz
              have hps : ps = x :: xs := Option.some.inj (hbp.symm.trans hbp0)
              subst hps
              exact hbval

/-- C7: the `searchParams` field of a completed `parseSchema` call is defined
if and only if a schema node is present, its inferred type carries a property
named `searchParams`, and that property's type is flagged as an object type;
and when those conditions hold its value is the recursive unwrapping of that
property's type. -/
theorem parseSchema_searchParams_spec (oracle : Oracle) (data : SchemaDescriptor)
    (skipBody : Bool) (r : ParsedSchema)
    (h : parseSchema oracle data skipBody = some r) :
    (r.searchParams.isSome = true ↔ ∃ zt spTy, schemaType oracle data = some zt ∧
        spProp zt = some spTy ∧ spTy.objFlag = true)
    ∧ (∀ zt spTy, schemaType oracle data = some zt → spProp zt = some spTy →
        spTy.objFlag = true → r.searchParams = getZodTypeToString spTy) := by
  obtain ⟨body, sp, hbo, hsp, hb, hs, hr⟩ := parseSchema_eq_some oracle data skipBody r h
  unfold spOpt at hsp
  cases hst : schemaType oracle data with
  | none =>
    rw [hst] at hsp
    have hspv : none = sp := Option.some.inj hsp
    subst hspv
    refine ⟨?_, ?_⟩
    · rw [hs]
      constructor
      · intro hcc
        exact absurd hcc (by simp)
      · rintro ⟨zt, spTy, hzt, _, _⟩
        exact absurd hzt (by simp)
    · intro zt spTy hzt hfp hfl
      exact absurd hzt (by simp)
  | some zt0 =>
    rw [hst] at hsp
    have hsp2 : (match spProp zt0 with
        | none => some none
        | some spTy =>
          if spTy.objFlag then
            match getZodTypeToString spTy with
            | none => none
            | some s => some (some s)
          else some none) = some sp := hsp
    cases hfp : spProp zt0 with
    | none =>
      rw [hfp] at hsp2
      have hspv : none = sp := Option.some.inj hsp2
      subst hspv
      refine ⟨?_, ?_⟩
      · rw [hs]
        constructor
        · intro hcc
          exact absurd hcc (by simp)
        · rintro ⟨zt, spTy, hzt, hfp2, _⟩
          have hz : zt = zt0 := (Option.some.inj hzt).symm
          subst hz
          exact absurd (hfp.symm.trans hfp2) (by simp)
      · intro zt spTy hzt hfp2 hfl
        have hz : zt = zt0 := (Option.some.inj hzt).symm
        subst hz
        exact absurd (hfp.symm.trans hfp2) (by simp)
    | some spTy0 =>
      rw [hfp] at hsp2
      have hsp3 : (if spTy0.objFlag then
          match getZodTypeToString spTy0 with
          | none => none
          | some s => some (some s)
        else some none) = some sp := hsp2
      cases hfl0 : spTy0.objFlag with
      | false =>
        rw [hfl0] at hsp3
        have hspv : none = sp := Option.some.inj hsp3
        subst hspv
        refine ⟨?_, ?_⟩
        · rw [hs]
          constructor
          · intro hcc
            exact absurd hcc (by simp)
          · rintro ⟨zt, spTy, hzt, hfp2, hfl2⟩
            have hz : zt = zt0 := (Option.some.inj hzt).symm
            subst hz
            have hty : spTy0 = spTy := Option.some.inj (hfp.symm.trans hfp2)
            subst hty
            exact absurd (hfl0.symm.trans hfl2) (by simp)
        · intro zt spTy hzt hfp2 hfl2
          have hz : zt = zt0 := (Option.some.inj hzt).symm
          subst hz
          have hty : spTy0 = spTy := Option.some.inj (hfp.symm.trans hfp2)
          subst hty
          exact absurd (hfl0.symm.trans hfl2) (by simp)
      | true =>
        rw [hfl0] at hsp3
        have hsp4 : (match getZodTypeToString spTy0 with
            | none => none
            | some s => some (some s)) = some sp := hsp3
        cases hz : getZodTypeToString spTy0 with
        | none =>
          rw [hz] at hsp4
          exact absurd (show (none : Option (Option String)) = some sp from hsp4) (by simp)
        | some s =>
          rw [hz] at hsp4
          have hspv : some s = sp :=
            Option.some.inj (show some (some s) = some sp from hsp4)
          subst hspv
          refine ⟨?_, ?_⟩
          · rw [hs]
            constructor
            · intro _
              exact ⟨zt0, spTy0, rfl, hfp, hfl0⟩
            · intro _
              rfl
          · intro zt spTy hzt hfp2 hfl2
            have hzz : zt = zt0 := (Option.some.inj hzt).symm
            subst hzz
            have hty : spTy0 = spTy := Option.some.inj (hfp.symm.trans hfp2)
            subst hty
            rw [hs, hz]

/-- Evaluation of the unwrapper on `zodStrTy`: the primary path renders the
base type's third generic argument. -/
theorem getZod_zodStrTy : getZodTypeToString zodStrTy = some "string" := by
  unfold zodStrTy
  rw [getZodTypeToString.eq_2]
  rfl

/-- Evaluation of the unwrapper on `noArgTy`: no base type and no generic
argument, so the fallback faults. -/
theorem getZod_noArgTy : getZodTypeToString noArgTy = none := by
  unfold noArgTy
  rw [getZodTypeToString.eq_2]
  rfl

/-- Schema input type for the C6 and C10 witnesses: one `name` property whose
type unwraps to `"string"`. -/
def bodyTy : Ty := .mk "In6" none [] [("name", zodStrTy)] false

/-- Oracle resolving every node to `bodyTy`. -/
def oracleC6 : Oracle := ⟨fun _ => bodyTy, anyTy, voidTy⟩

/-- Descriptor with a schema node present. -/
def dataC6 : SchemaDescriptor := ⟨some (.atom "schema"), anyTy⟩

/-- Result of `parseSchema oracleC6 dataC6 false`. -/
def pr6 : ParsedSchema := ⟨some "\x7b name: string \x7d", none, some "any"⟩

theorem propEntry_run6 : propEntry ("name", zodStrTy) = some (some "name: string") := by
  have e1 : getZodTypeToString (("name", zodStrTy) : String × Ty).2 = some "string" :=
    getZod_zodStrTy
  unfold propEntry
  rw [e1]
  rfl

theorem bodyPairs_run6 : bodyPairs bodyTy = some ["name: string"] := by
  show (mapCrash propEntry [("name", zodStrTy)]).map (fun l => l.filterMap id) =
    some ["name: string"]
  unfold mapCrash
  rw [propEntry_run6]
  rfl

theorem parseSchema_run6 : parseSchema oracleC6 dataC6 false = some pr6 := by
  have hbody : bodyOpt oracleC6 dataC6 false = some (some "\x7b name: string \x7d") := by
    show (bodyString bodyTy).map some = _
    unfold bodyString
    rw [bodyPairs_run6]
    rfl
  unfold parseSchema
  rw [hbody, show spOpt (schemaType oracleC6 dataC6) = some none from rfl]
  rfl

/-- C6 witness: the claim's positive branch applied at a concrete schema type
with a single kept property. -/
theorem parseSchema_body_spec_witness :
    parseSchema oracleC6 dataC6 false = some pr6 ∧
    pr6.body = some ("\x7b " ++ joinSep ["name: string"] ++ " \x7d") :=
  ⟨parseSchema_run6,
   (parseSchema_body_spec oracleC6 dataC6 false pr6 parseSchema_run6).2 bodyTy
     ["name: string"] rfl rfl bodyPairs_run6 (by simp)⟩

/-- Type of the `searchParams` property for the C7 witness: object-flagged,
unwrapping via the primary path to `"string"`. -/
def spTy7 : Ty := .mk "SPOut" (some [zodBaseTy]) [] [] true

/-- Schema input type carrying only a `searchParams` property. -/
def schemaTy7 : Ty := .mk "In7" none [] [("searchParams", spTy7)] false

/-- Oracle resolving every node to `schemaTy7`. -/
def oracleC7 : Oracle := ⟨fun _ => schemaTy7, anyTy, voidTy⟩

/-- Descriptor with a schema node present. -/
def dataC7 : SchemaDescriptor := ⟨some (.atom "schema"), anyTy⟩

/-- Result of `parseSchema oracleC7 dataC7 false`: the body record keeps no
property (the reserved one is excluded), so `body` is absent. -/
def pr7 : ParsedSchema := ⟨none, some "string", some "any"⟩

theorem getZod_spTy7 : getZodTypeToString spTy7 = some "string" := by
  unfold spTy7
  rw [getZodTypeToString.eq_2]
  rfl

theorem spOpt_run7 : spOpt (schemaType oracleC7 dataC7) = some (some "string") := by
  show (match getZodTypeToString spTy7 with
    | none => none
    | some s => some (some s)) = some (some "string")
  rw [getZod_spTy7]

theorem parseSchema_run7 : parseSchema oracleC7 dataC7 false = some pr7 := by
  unfold parseSchema
  rw [spOpt_run7, show bodyOpt oracleC7 dataC7 false = some (some "\x7b  \x7d") from rfl]
  rfl

/-- C7 witness: the claim applied at a concrete schema type whose
`searchParams` property is object-flagged and unwraps to `"string"`. -/
theorem parseSchema_searchParams_spec_witness :
    parseSchema oracleC7 dataC7 false = some pr7 ∧
    pr7.searchParams = getZodTypeToString spTy7 :=
  ⟨parseSchema_run7,
   (parseSchema_searchParams_spec oracleC7 dataC7 false pr7 parseSchema_run7).2
     schemaTy7 spTy7 rfl rfl rfl⟩

/-- Schema input type for the C10 counterexample: a single property whose
type makes the unwrapper fault. -/
def schemaTy10 : Ty := .mk "In10" none [] [("x", noArgTy)] false

/-- Oracle resolving every node to `schemaTy10`. -/
def oracleC10 : Oracle := ⟨fun _ => schemaTy10, anyTy, voidTy⟩

/-- Descriptor with a schema node present. -/
def dataC10 : SchemaDescriptor := ⟨some (.atom "schema"), anyTy⟩

theorem propEntry_run10 : propEntry ("x", noArgTy) = none := by
  have e1 : getZodTypeToString (("x", noArgTy) : String × Ty).2 = none := getZod_noArgTy
  unfold propEntry
  rw [e1]
  rfl

theorem bodyOpt_run10 : bodyOpt oracleC10 dataC10 false = none := by
  have h1 : mapCrash propEntry [("x", noArgTy)] = none := by
    unfold mapCrash
    rw [propEntry_run10]
  show (((mapCrash propEntry [("x", noArgTy)]).map (fun l => l.filterMap id)).map
      (fun ps => "\x7b " ++ joinSep ps ++ " \x7d")).map some = none
  rw [h1]
  rfl

/-- C10 counterexample: `skipBody` does not only affect the `body` field — at
this input the call with `skipBody = true` completes while the call with
`skipBody = false` faults while unwrapping a property type, producing no
record (and hence no `searchParams`/`returnType` fields) at all. -/
theorem parseSchema_c10_counterexample :
    parseSchema oracleC10 dataC10 true = some ⟨none, none, some "any"⟩ ∧
    parseSchema oracleC10 dataC10 false = none := by
  constructor
  · rfl
  · unfold parseSchema
    rw [bodyOpt_run10]

/-- C10 amended: whenever the `skipBody = false` call completes, the
`skipBody = true` call also completes and the two results carry identical
`searchParams` and identical `returnType` fields (only `body` differs). -/
theorem parseSchema_skipBody_frame (oracle : Oracle) (data : SchemaDescriptor)
    (r2 : ParsedSchema) (h : parseSchema oracle data false = some r2) :
    ∃ r1, parseSchema oracle data true = some r1 ∧
      r1.searchParams = r2.searchParams ∧ r1.returnType = r2.returnType := by
  obtain ⟨body, sp, hbo, hsp, hb, hs, hr⟩ := parseSchema_eq_some oracle data false r2 h
  refine ⟨⟨none, sp, some (typeToString data.returnType)⟩, ?_, ?_, ?_⟩
  · unfold parseSchema
    rw [hsp, show bodyOpt oracle data true = some none from rfl]
    rfl
  · exact hs.symm
  · exact hr.symm

/-- C10 amended witness: the amended theorem applied at the C6 fixture, whose
`skipBody = false` call completes. -/
theorem parseSchema_skipBody_frame_witness :
    ∃ r1, parseSchema oracleC6 dataC6 true = some r1 ∧
      r1.searchParams = pr6.searchParams ∧ r1.returnType = pr6.returnType :=
  parseSchema_skipBody_frame oracleC6 dataC6 pr6 parseSchema_run6

end ApiFetch
